import Mathlib

/-!
# Verification of the quiz-server core against its specification

Shallow embedding of `src/backend/server.py` (the room runtime of the
real-time quiz server): the scoring engine `calc_points_v2`, the
leaderboard rank assignment of `calc_leaderboard`, the `submit-answer`
endpoint together with the room bookkeeping (`has_answered`,
`set_question`, `mark_answered`), the cache invalidation path of
`update_quiz_status`, the broadcast worker's critical-type flush
decision, and the question-stripping endpoint `get_quiz_questions`.

Python `float` arithmetic is idealised as exact rational arithmetic
(`ℚ`); Python `int` as `ℤ`.  Fallible Python operations (true division,
which raises `ZeroDivisionError` on a zero divisor) are embedded into
`Option`.
-/

/-! ## Python-semantics helpers -/

/-- Python `int(q)` on a real value: truncation toward zero. -/
def pyInt (q : ℚ) : ℤ := if 0 ≤ q then ⌊q⌋ else ⌈q⌉

/-- Python `a // b` on integers: floor division (we only apply it with
`b ≠ 0` in this development, mirroring the literal divisors in the code). -/
def pyFloorDiv (a b : ℤ) : ℤ := Int.fdiv a b

/-- Python true division `a / b`: raises `ZeroDivisionError` when `b = 0`,
embedded as `none`. -/
def pyDiv (a b : ℚ) : Option ℚ := if b = 0 then none else some (a / b)

/-! ## Data model for scoring (`calc_points_v2`, server.py:965) -/

/-- The heterogeneous `points` field of a question document:
`"standard" | "double" | "noPoints" | int`, with a catch-all for any
other value (the code defaults those to 1000). -/
inductive PointsCfg
  | standard
  | double
  | noPoints
  | explicitInt (n : ℤ)
  | other
deriving DecidableEq, Repr

/-- The fields of a question document consumed by the scoring engine. -/
structure Question where
  points : PointsCfg
  timeLimit : ℤ
deriving DecidableEq, Repr

/-- One record of a participant's `answers` array, restricted to the
fields the scoring engine and the invariants read. -/
structure AnswerRec where
  questionIndex : ℕ
  isCorrect : Bool
deriving DecidableEq, Repr

/-- The `max_base` resolution at the top of `calc_points_v2`
(server.py:980-988).  `noPoints` makes the engine return early, so the
value assigned here to `noPoints` is never consumed; we pick 0. -/
def maxBaseOf : PointsCfg → ℤ
  | .standard => 1000
  | .double => 2000
  | .noPoints => 0
  | .explicitInt n => n
  | .other => 1000

/-- The streak-counting loop of `calc_points_v2` (server.py:1009-1014):
the number of consecutive correct answers at the tail of
`previous_answers`. -/
def consecutiveCorrect (previous_answers : List AnswerRec) : ℕ :=
  (previous_answers.reverse.takeWhile (fun a => a.isCorrect)).length

/-- Shallow embedding of `calc_points_v2` (server.py:965-1035), returning
`(base_points, time_bonus, streak_bonus)`; the Python true division
`time_taken / time_limit` is embedded through `pyDiv`, so the result is
an `Option` that is `none` exactly when that division would raise
`ZeroDivisionError`. -/
def calc_points_v2 (question : Question) (correct : Bool) (time_taken : ℚ)
    (previous_answers : List AnswerRec) (answer_position : ℕ) :
    Option (ℤ × ℤ × ℤ) :=
  if correct = false then some (0, 0, 0)
  else if question.points = .noPoints then some (0, 0, 0)
  else
    let max_base : ℤ := maxBaseOf question.points
    let base_points : ℤ := pyFloorDiv max_base 2
    let time_limit : ℤ := question.timeLimit
    if time_limit = 0 then some (max_base, 0, 0)
    else
      let time_bonus? : Option ℤ :=
        if time_taken < 3/10 then some (pyFloorDiv max_base 2)
        else if (time_limit : ℚ) ≤ time_taken then some 0
        else
          (pyDiv time_taken (time_limit : ℚ)).map (fun r =>
            let time_ratio : ℚ := min 1 r
            pyInt ((pyFloorDiv max_base 2 : ℤ) * ((1 - time_ratio) ^ 2)))
      time_bonus?.map (fun time_bonus =>
        let current_streak : ℕ := consecutiveCorrect previous_answers + 1
        let subtotal : ℤ := base_points + time_bonus
        let streak_bonus : ℤ :=
          if 5 ≤ current_streak then pyInt ((subtotal : ℚ) * (30 / 100))
          else if 4 ≤ current_streak then pyInt ((subtotal : ℚ) * (20 / 100))
          else if 3 ≤ current_streak then pyInt ((subtotal : ℚ) * (10 / 100))
          else if 2 ≤ current_streak then pyInt ((subtotal : ℚ) * (5 / 100))
          else 0
        let position_bonus : ℤ := max 0 (6 - min ((answer_position : ℤ) + 1) 6)
        (base_points, time_bonus + position_bonus, streak_bonus))

example : calc_points_v2 ⟨.standard, 30⟩ true (1/5) [] 0 = some (500, 505, 0) := by
  norm_num [calc_points_v2, pyInt, pyFloorDiv, pyDiv, consecutiveCorrect, maxBaseOf]
  decide

example : calc_points_v2 ⟨.explicitInt 0, 30⟩ true 1 [] 0 = some (0, 5, 0) := by
  norm_num [calc_points_v2, pyInt, pyFloorDiv, pyDiv, consecutiveCorrect, maxBaseOf]
  decide

/-! ## Spec-side scoring formulas

These follow the wording of the specification (§5 scoring, §8 B1-B3),
to be compared with the engine embedded above. -/

/-- The spec's time-bonus formula for weight `W`, elapsed time `t` and
time limit `tl`: `W/2` if `t < 0.3`, `0` if `t ≥ timeLimit`, otherwise
`⌊(W/2)·(1 − t/timeLimit)²⌋`. -/
def timeBonusSpec (W : ℤ) (t : ℚ) (tl : ℤ) : ℤ :=
  if t < 3/10 then Int.fdiv W 2
  else if (tl : ℚ) ≤ t then 0
  else ⌊(Int.fdiv W 2 : ℚ) * (1 - t / (tl : ℚ)) ^ 2⌋

/-- The spec's position bonus (tiebreaker salt) for 0-based arrival
position `p`: `max(0, 6 − min(p+1, 6))`, producing 5,4,3,2,1,0. -/
def posBonusSpec (p : ℕ) : ℤ := max 0 (6 - min ((p : ℤ) + 1) 6)

/-- The spec's streak bonus for streak length `k` on `subtotal`:
`k≥5 → ⌊0.30·subtotal⌋`, `k=4 → ⌊0.20·subtotal⌋`, `k=3 → ⌊0.10·subtotal⌋`,
`k=2 → ⌊0.05·subtotal⌋`, `k=1 → 0`. -/
def streakBonusSpec (k : ℕ) (subtotal : ℤ) : ℤ :=
  if 5 ≤ k then ⌊(subtotal : ℚ) * (30 / 100)⌋
  else if k = 4 then ⌊(subtotal : ℚ) * (20 / 100)⌋
  else if k = 3 then ⌊(subtotal : ℚ) * (10 / 100)⌋
  else if k = 2 then ⌊(subtotal : ℚ) * (5 / 100)⌋
  else 0

/-! ## Leaderboard rank assignment (`calc_leaderboard`, server.py:1038)

The document store performs the sort (`score` descending, then
`totalTime` ascending); `calc_leaderboard` then walks the sorted list
assigning competition ranks, comparing `totalTime` rounded to two
decimals.  We embed the walk over an already-sorted input list. -/

/-- A participant row as fetched for the leaderboard. -/
structure LBEntry where
  score : ℤ
  totalTime : ℚ
deriving DecidableEq, Repr

/-- A produced leaderboard row: score, rounded total time, and rank. -/
structure RankedEntry where
  score : ℤ
  rtime : ℚ
  rank : ℕ
deriving DecidableEq, Repr

/-- Python 3 `round` to an integer: round half to even. -/
def pyRound (q : ℚ) : ℤ :=
  if q - ⌊q⌋ < 1/2 then ⌊q⌋
  else if 1/2 < q - ⌊q⌋ then ⌊q⌋ + 1
  else if ⌊q⌋ % 2 = 0 then ⌊q⌋ else ⌊q⌋ + 1

/-- Python `round(x, 2)`: round to two decimal places. -/
def round2 (q : ℚ) : ℚ := (pyRound (q * 100) : ℚ) / 100

/-- The sort order the leaderboard query requests from the store:
`score` descending, then `totalTime` ascending. -/
def lbLE (a b : LBEntry) : Prop :=
  b.score < a.score ∨ (a.score = b.score ∧ a.totalTime ≤ b.totalTime)

instance : DecidableRel lbLE := fun a b => by
  unfold lbLE; infer_instance

/-- The rank decision for one row (server.py:1066-1070): keep the
previous rank if this row's `(score, rounded totalTime)` equals the
previous row's pair, else `idx + 1`. -/
def rankOf (p : LBEntry) (idx : ℕ) (prev : Option (ℤ × ℚ)) (prevRank : ℕ) : ℕ :=
  match prev with
  | some (ps, pt) => if p.score = ps ∧ round2 p.totalTime = pt then prevRank else idx + 1
  | none => idx + 1

/-- The rank-assignment loop of `calc_leaderboard` (server.py:1055-1083):
`idx` is the running 0-based index, `prev` the previous row's
`(score, rounded totalTime)` pair (`None` before the first row), and
`prevRank` the previous row's rank (0 before the first row). -/
def rankLoop : List LBEntry → ℕ → Option (ℤ × ℚ) → ℕ → List RankedEntry
  | [], _, _, _ => []
  | p :: rest, idx, prev, prevRank =>
    let rank := rankOf p idx prev prevRank
    ⟨p.score, round2 p.totalTime, rank⟩ ::
      rankLoop rest (idx + 1) (some (p.score, round2 p.totalTime)) rank

/-- Shallow embedding of `calc_leaderboard`'s rank assignment over the
store-sorted participant list. -/
def calc_leaderboard (parts : List LBEntry) : List RankedEntry :=
  rankLoop parts 0 none 0

example :
    calc_leaderboard [⟨100, 5⟩, ⟨100, 5⟩, ⟨90, 3⟩] =
      [⟨100, 5, 1⟩, ⟨100, 5, 1⟩, ⟨90, 3, 3⟩] := by
  norm_num [calc_leaderboard, rankLoop, rankOf, round2, pyRound]

/-! ## Room and store state (`ConnectionManager` + document store)

State model for the `submit-answer` path: `manager.room_state` (one
`RoomState` per quiz code), and the document-store collections
`quizzes`, `questions`, `participants`.  Answer records keep only the
fields read by the claims (questionIndex, isCorrect); serialized
timestamps and per-component point fields of the stored record are
elided. -/

/-- The `QuizState` string constants (server.py:203-213). -/
inductive QuizStateV
  | lobby | question | answer_reveal | leaderboard | final_leaderboard | podium | ended
deriving DecidableEq, Repr

/-- Per-room in-memory state: the slice of `manager.room_state[code]`
the claims read (`quiz_state`, `current_question`, the `answered` set,
modelled as a duplicate-free list). -/
structure RoomState where
  quiz_state : QuizStateV
  current_question : ℕ
  answered : List String
deriving DecidableEq, Repr

/-- The `correctAnswer` field of a question document: either a single
option or a list of options (server.py:1578-1583). -/
inductive CorrectAns
  | single (v : ℤ)
  | multi (vs : List ℤ)
deriving DecidableEq, Repr

/-- A question document of the `questions` collection. -/
structure QuestionDoc where
  quizCode : String
  index : ℕ
  points : PointsCfg
  timeLimit : ℤ
  correctAnswer : CorrectAns
deriving DecidableEq, Repr

/-- A quiz document, restricted to the fields the endpoints read. -/
structure QuizDoc where
  code : String
  status : String
deriving DecidableEq, Repr

/-- A participant document, restricted to the fields the claims read. -/
structure ParticipantDoc where
  id : String
  quizCode : String
  score : ℤ
  totalTime : ℚ
  answers : List AnswerRec
deriving DecidableEq, Repr

/-- The server state seen by the `submit-answer` path. -/
structure ServerState where
  rooms : List (String × RoomState)
  quizzes : List QuizDoc
  questions : List QuestionDoc
  participants : List ParticipantDoc
deriving DecidableEq, Repr

/-- `self.room_state[quiz_code]` lookup. -/
def lookupRoom (s : ServerState) (code : String) : Option RoomState :=
  (s.rooms.find? (fun r => r.1 = code)).map (fun r => r.2)

/-- `ConnectionManager.has_answered` (server.py:526-529). -/
def has_answered (s : ServerState) (code uid : String) : Bool :=
  match lookupRoom s code with
  | some room => uid ∈ room.answered
  | none => false

/-- `ConnectionManager.get_state` (server.py:488-491): defaults to
LOBBY when the room does not exist. -/
def get_state (s : ServerState) (code : String) : QuizStateV :=
  match lookupRoom s code with
  | some room => room.quiz_state
  | none => .lobby

/-- Apply `f` to the room of `code`, if present. -/
def updateRoom (s : ServerState) (code : String) (f : RoomState → RoomState) :
    ServerState :=
  { s with rooms := s.rooms.map (fun r => if r.1 = code then (r.1, f r.2) else r) }

/-- `ConnectionManager.set_question` (server.py:493-506): sets the
current question index and clears the `answered` set (the timestamp and
answer-stats bookkeeping it also performs is not read by any claim). -/
def set_question (s : ServerState) (code : String) (index : ℕ) : ServerState :=
  updateRoom s code (fun room =>
    { room with current_question := index, answered := [] })

/-- `ConnectionManager.clear_answers` (server.py:531-533). -/
def clear_answers (s : ServerState) (code : String) : ServerState :=
  updateRoom s code (fun room => { room with answered := [] })

/-- `ConnectionManager.mark_answered` (server.py:522-524): `set.add`. -/
def mark_answered (s : ServerState) (code uid : String) : ServerState :=
  updateRoom s code (fun room =>
    { room with answered := if uid ∈ room.answered then room.answered else uid :: room.answered })

/-- `ConnectionManager.set_state` (server.py:478-482). -/
def set_state (s : ServerState) (code : String) (st : QuizStateV) : ServerState :=
  updateRoom s code (fun room => { room with quiz_state := st })

/-- The `AnswerSubmit` request body (server.py:845-850). -/
structure AnswerSubmit where
  participantId : String
  quizCode : String
  questionIndex : ℕ
  selectedOption : ℤ
  timeTaken : ℚ
deriving DecidableEq, Repr

/-- Responses of the `submit-answer` endpoint: an `HTTPException` with a
status code, the soft-ignored response sent when the quiz has reached
PODIUM/ENDED, or a scored acknowledgement. -/
inductive SubmitResp
  | error (status : ℕ)
  | ignoredEnded
  | ok (correct : Bool) (points : ℤ)
deriving DecidableEq, Repr

/-- Replace the first list element satisfying `pred` by `f` of it
(Mongo `update_one` semantics). -/
def updateFirst (pred : ParticipantDoc → Bool) (f : ParticipantDoc → ParticipantDoc) :
    List ParticipantDoc → List ParticipantDoc
  | [] => []
  | p :: rest => if pred p then f p :: rest else p :: updateFirst pred f rest

/-- Shallow embedding of `POST /api/submit-answer` (server.py:1533-1691),
returning the response and the updated server state.  The order of the
guards mirrors the handler: duplicate fast-fail on the room's `answered`
set, soft-ignore on ENDED/PODIUM, then 404/400/403/404 for missing quiz,
ended quiz, unknown participant, missing question; then scoring via
`calc_points_v2`, the participant-document update (`$inc` score and
totalTime, `$push` answers) and `mark_answered`.  A `ZeroDivisionError`
escaping the handler is turned into a 500 by the generic handler. -/
def submit_answer (s : ServerState) (ans : AnswerSubmit) : SubmitResp × ServerState :=
  if has_answered s ans.quizCode ans.participantId then (.error 400, s)
  else if get_state s ans.quizCode = .ended ∨ get_state s ans.quizCode = .podium then
    (.ignoredEnded, s)
  else
    match s.quizzes.find? (fun qz => qz.code = ans.quizCode) with
    | none => (.error 404, s)
    | some quiz =>
      if quiz.status = "ended" then (.error 400, s)
      else
        match s.participants.find? (fun p =>
            p.id = ans.participantId && p.quizCode = ans.quizCode) with
        | none => (.error 403, s)
        | some p =>
          match s.questions.find? (fun qd =>
              qd.quizCode = ans.quizCode && qd.index = ans.questionIndex) with
          | none => (.error 404, s)
          | some qd =>
            let is_correct : Bool :=
              match qd.correctAnswer with
              | .multi vs => ans.selectedOption ∈ vs
              | .single v => v = ans.selectedOption
            let answer_position : ℕ :=
              match lookupRoom s ans.quizCode with
              | some room => room.answered.length
              | none => 0
            match calc_points_v2 ⟨qd.points, qd.timeLimit⟩ is_correct ans.timeTaken
                p.answers answer_position with
            | none => (.error 500, s)
            | some (base_pts, time_bonus, streak_bonus) =>
              let total_pts := base_pts + time_bonus + streak_bonus
              let ans_rec : AnswerRec := ⟨ans.questionIndex, is_correct⟩
              let bump : ParticipantDoc → ParticipantDoc := fun q =>
                { q with
                  score := q.score + total_pts
                  totalTime := q.totalTime + ans.timeTaken
                  answers := q.answers ++ [ans_rec] }
              let parts' := updateFirst (fun q => q.id = ans.participantId) bump s.participants
              let s₁ := { s with participants := parts' }
              let s₂ := mark_answered s₁ ans.quizCode ans.participantId
              (.ok is_correct total_pts, s₂)

/-! ## Quiz cache and the admin status endpoint (C4)

`QuizCache` (server.py:107-190) is a two-tier cache: in-process
dictionaries `_mem_quiz` / `_mem_questions` keyed by quiz code, and an
external key-value store holding `quiz:{code}`, `questions:{code}` and
`leaderboard:{code}`.  We track which keys are present in each tier;
the serialized values and TTL timestamps are not read by the claim. -/

/-- Keys present in each cache tier. -/
structure CacheState where
  memQuizKeys : List String
  memQuestionKeys : List String
  redisKeys : List String
deriving DecidableEq, Repr

/-- The body of `QuizCache.invalidate` (server.py:164-173) as it
executes when the coroutine is actually awaited: pops the in-memory
entries for `code` and deletes the three external keys. -/
def QuizCache.invalidate (c : CacheState) (code : String) : CacheState :=
  { memQuizKeys := c.memQuizKeys.filter (fun k => k ≠ code)
    memQuestionKeys := c.memQuestionKeys.filter (fun k => k ≠ code)
    redisKeys := c.redisKeys.filter (fun k =>
      k ≠ "quiz:" ++ code ∧ k ≠ "questions:" ++ code ∧ k ≠ "leaderboard:" ++ code) }

/-- The state acted on by `PATCH /api/admin/quiz/{code}/status`
(server.py:1297-1334): the quizzes collection, the cache, and the room
map (for the teardown on `ended`). -/
structure AdminState where
  quizzes : List QuizDoc
  cache : CacheState
  rooms : List (String × RoomState)
deriving DecidableEq, Repr

/-- Replace the status of the first quiz whose code matches (`update_one`). -/
def setQuizStatus (code status : String) : List QuizDoc → List QuizDoc
  | [] => []
  | qz :: rest =>
    if qz.code = code then { qz with status := status } :: rest
    else qz :: setQuizStatus code status rest

/-- Shallow embedding of `update_quiz_status`
(`PATCH /api/admin/quiz/{code}/status`, server.py:1297-1334).  After the
store update the handler executes the statement
`quiz_cache.invalidate(code)` — *without* `await` (server.py:1311).  In
Python, calling an `async def` function without awaiting it only
constructs a coroutine object, which is then discarded: the body of
`invalidate` never runs.  The embedding therefore leaves the cache
unchanged.  On `ended` the room state is set to ENDED and the room is
torn down (`close_room` deletes `room_state[code]`); broadcasts carry
no state. -/
def update_quiz_status (st : AdminState) (code status : String) :
    Except ℕ String × AdminState :=
  if ¬ (status = "active" ∨ status = "inactive" ∨ status = "ended") then
    (.error 400, st)
  else if (st.quizzes.find? (fun qz => qz.code = code)).isNone then
    (.error 404, st)
  else
    let quizzes' := setQuizStatus code status st.quizzes
    let cache' := st.cache
    let rooms' :=
      if status = "ended" then st.rooms.filter (fun r => r.1 ≠ code)
      else st.rooms
    (.ok status, { quizzes := quizzes', cache := cache', rooms := rooms' })

/-! ## Broadcast worker flush decision (C5)

One iteration of `_broadcast_worker`'s queue loop (server.py:352-397):
after appending the dequeued message to the pending batch, the batch is
flushed if the message's type is critical or more than 10 ms have
passed since the last send. -/

/-- The `is_critical` list of `_broadcast_worker` (server.py:372-380). -/
def criticalTypes : List String :=
  ["quiz_starting", "next_question", "show_answer", "show_leaderboard",
   "show_podium", "sync_state", "question_time_sync"]

/-- The worker's in-loop state: the pending batch (message types) and
the time of the last send, in seconds. -/
structure WorkerState where
  batch : List String
  lastSend : ℚ
deriving DecidableEq, Repr

/-- One iteration of the worker loop for a dequeued message of type
`msgType` at time `now` (server.py:362-388): append to the batch, then
flush if `is_critical or (batch and now - last_send > 0.01)`.  Returns
whether the batch was flushed now together with the new state (the
contents of the flushed frame, single or composite, are sent by
`_send_batch` and carry no further worker state). -/
def workerStep (ws : WorkerState) (msgType : String) (now : ℚ) :
    Bool × WorkerState :=
  let batch := ws.batch ++ [msgType]
  let is_critical : Bool := msgType ∈ criticalTypes
  if is_critical ∨ (batch ≠ [] ∧ now - ws.lastSend > 1/100) then
    (true, ⟨[], now⟩)
  else
    (false, ⟨batch, ws.lastSend⟩)

/-! ## Question fetch endpoint (C9)

`GET /api/quiz/{code}/questions` (server.py:1498-1530).  Question
documents are handled generically as dictionaries here (the handler
strips the `correctAnswer` key by dict comprehension), so they are
embedded as association lists from field name to value. -/

/-- `{k: v for k, v in q.items() if k != "correctAnswer"}` (server.py:1516). -/
def stripCorrectAnswer (q : List (String × String)) : List (String × String) :=
  q.filter (fun kv => kv.1 ≠ "correctAnswer")

/-- Shallow embedding of `get_quiz_questions` (server.py:1498-1530).
`quiz` is the result of `get_quiz_with_cache`, `questions` the cached
question dictionaries, and `participantResolvable` the truthiness of
`verify_participant(participantId, code)` — which the handler consults
only when `participantId != "admin"`. -/
def get_quiz_questions (quiz : Option QuizDoc)
    (questions : List (List (String × String)))
    (participantId : String) (participantResolvable : Bool) :
    Except ℕ (List (List (String × String))) :=
  match quiz with
  | none => .error 404
  | some qz =>
    if qz.status = "ended" then .error 400
    else if participantId ≠ "admin" ∧ ¬ participantResolvable then .error 403
    else if participantId ≠ "admin" then .ok (questions.map stripCorrectAnswer)
    else .ok questions

/-- A concrete store-sorted participant list with a two-way tie at the
top, used to exercise the leaderboard rank assignment. -/
def lbExample : List LBEntry := [⟨100, 5⟩, ⟨100, 5⟩, ⟨90, 3⟩]

/-- Concrete server state for exercising the duplicate-submission
fast-fail: participant `p1` is already in room `R1`'s answered set. -/
def c2State : ServerState :=
  { rooms := [("R1", ⟨.question, 0, ["p1"]⟩)]
    quizzes := [⟨"R1", "active"⟩]
    questions := [⟨"R1", 0, .standard, 30, .single 1⟩]
    participants := [⟨"p1", "R1", 1005, 5, [⟨0, true⟩]⟩] }

/-- The duplicate submission request for `c2State`. -/
def c2Ans : AnswerSubmit := ⟨"p1", "R1", 0, 1, 1⟩

/-- Concrete initial state for the answered-set replay trace: room `R1`
on question 0, participant `p1` with no answers yet. -/
def c3State0 : ServerState :=
  { rooms := [("R1", ⟨.question, 0, []⟩)]
    quizzes := [⟨"R1", "active"⟩]
    questions := [⟨"R1", 0, .standard, 30, .single 1⟩, ⟨"R1", 1, .standard, 30, .single 2⟩]
    participants := [⟨"p1", "R1", 0, 0, []⟩] }

/-- A correct submission of `p1` for question index 0 (instant answer). -/
def c3Ans : AnswerSubmit := ⟨"p1", "R1", 0, 1, 0⟩

/-- After the first accepted submission for question 0. -/
def c3State1 : ServerState := (submit_answer c3State0 c3Ans).2

/-- The admin advances to question 1: `set_question` clears the room's
answered set (server.py:2198-2199). -/
def c3State2 : ServerState := set_question c3State1 "R1" 1

/-- The client replays the same submission for question 0: the answered
set no longer contains `p1`, so the duplicate fast-fail does not fire. -/
def c3State3 : ServerState := (submit_answer c3State2 c3Ans).2

/-- Concrete admin-endpoint state: quiz `AB12` is present in both cache
tiers (in-process dictionaries and external key-value store). -/
def c4State : AdminState :=
  { quizzes := [⟨"AB12", "active"⟩]
    cache := ⟨["AB12"], ["AB12"], ["quiz:AB12", "questions:AB12", "leaderboard:AB12"]⟩
    rooms := [] }

/-! ## Helper lemmas -/

/-- The claim predicate of invariant I5: no two answer records share a
question index. -/
def noDupQuestionIndex (l : List AnswerRec) : Prop :=
  List.Pairwise (fun a b => a.questionIndex ≠ b.questionIndex) l

lemma pyInt_eq_floor {x : ℚ} (h : 0 ≤ x) : pyInt x = ⌊x⌋ := if_pos h

lemma maxBaseOf_pos_ne_noPoints {p : PointsCfg} (h : 0 < maxBaseOf p) :
    p ≠ .noPoints := by
  intro e; rw [e] at h; simp [maxBaseOf] at h

lemma fdiv_two_nonneg {W : ℤ} (h : 0 ≤ W) : 0 ≤ Int.fdiv W 2 :=
  Int.fdiv_nonneg h (by norm_num)

lemma timeBonusSpec_nonneg {W : ℤ} (t : ℚ) (tl : ℤ) (hW : 0 ≤ W) :
    0 ≤ timeBonusSpec W t tl := by
  unfold timeBonusSpec
  split_ifs with h1 h2
  · exact fdiv_two_nonneg hW
  · exact le_refl 0
  · exact Int.floor_nonneg.mpr
      (mul_nonneg (by exact_mod_cast fdiv_two_nonneg hW) (sq_nonneg _))

lemma streak_code_eq_spec (k : ℕ) (s : ℤ) (hs : 0 ≤ s) :
    (if 5 ≤ k then pyInt ((s : ℚ) * (30 / 100))
     else if 4 ≤ k then pyInt ((s : ℚ) * (20 / 100))
     else if 3 ≤ k then pyInt ((s : ℚ) * (10 / 100))
     else if 2 ≤ k then pyInt ((s : ℚ) * (5 / 100))
     else 0) = streakBonusSpec k s := by
  have hs' : (0 : ℚ) ≤ (s : ℚ) := by exact_mod_cast hs
  rw [pyInt_eq_floor (by positivity), pyInt_eq_floor (by positivity),
    pyInt_eq_floor (by positivity), pyInt_eq_floor (by positivity)]
  unfold streakBonusSpec
  split_ifs <;> first | rfl | omega

/-- Full characterization of the engine on a correct answer with
positive weight and positive time limit, in terms of the spec-side
formulas. -/
lemma calc_points_v2_correct_eq (q : Question) (t : ℚ) (prev : List AnswerRec)
    (pos : ℕ) (hW : 0 < maxBaseOf q.points) (htl : 0 < q.timeLimit) :
    calc_points_v2 q true t prev pos =
      some (Int.fdiv (maxBaseOf q.points) 2,
            timeBonusSpec (maxBaseOf q.points) t q.timeLimit + posBonusSpec pos,
            streakBonusSpec (consecutiveCorrect prev + 1)
              (Int.fdiv (maxBaseOf q.points) 2 +
                timeBonusSpec (maxBaseOf q.points) t q.timeLimit)) := by
  have hW0 : (0 : ℤ) ≤ maxBaseOf q.points := le_of_lt hW
  have hnp : q.points ≠ .noPoints := maxBaseOf_pos_ne_noPoints hW
  have htl0 : q.timeLimit ≠ 0 := htl.ne'
  have hbase : 0 ≤ Int.fdiv (maxBaseOf q.points) 2 := fdiv_two_nonneg hW0
  simp only [calc_points_v2, pyFloorDiv]
  rw [if_neg (by simp : ¬ (true = false)), if_neg hnp, if_neg htl0]
  by_cases h1 : t < 3/10
  · rw [if_pos h1]
    simp only [Option.map_some', Option.some.injEq, Prod.mk.injEq, posBonusSpec]
    refine ⟨trivial, ?_, ?_⟩
    · rw [timeBonusSpec, if_pos h1]
    · rw [timeBonusSpec, if_pos h1,
        ← streak_code_eq_spec _ _ (add_nonneg hbase hbase)]
  · by_cases h2 : (q.timeLimit : ℚ) ≤ t
    · rw [if_neg h1, if_pos h2]
      simp only [Option.map_some', Option.some.injEq, Prod.mk.injEq, posBonusSpec]
      refine ⟨trivial, ?_, ?_⟩
      · rw [timeBonusSpec, if_neg h1, if_pos h2]
      · rw [timeBonusSpec, if_neg h1, if_pos h2,
          ← streak_code_eq_spec _ _ (by simpa using hbase)]
    · have htlq : (0 : ℚ) < (q.timeLimit : ℚ) := by exact_mod_cast htl
      have htlq0 : (q.timeLimit : ℚ) ≠ 0 := ne_of_gt htlq
      have hratio : t / (q.timeLimit : ℚ) < 1 := by
        rw [div_lt_one htlq]; exact lt_of_not_le h2
      have hmin : min 1 (t / (q.timeLimit : ℚ)) = t / (q.timeLimit : ℚ) :=
        min_eq_right (le_of_lt hratio)
      have hprod : (0 : ℚ) ≤
          ((Int.fdiv (maxBaseOf q.points) 2 : ℤ) : ℚ) * ((1 - t / (q.timeLimit : ℚ)) ^ 2) :=
        mul_nonneg (by exact_mod_cast hbase) (sq_nonneg _)
      rw [if_neg h1, if_neg h2]
      simp only [pyDiv, if_neg htlq0, Option.map_some', Option.some.injEq, Prod.mk.injEq, posBonusSpec]
      rw [hmin]
      have htb : pyInt (((Int.fdiv (maxBaseOf q.points) 2 : ℤ) : ℚ) *
            ((1 - t / (q.timeLimit : ℚ)) ^ 2)) =
          timeBonusSpec (maxBaseOf q.points) t q.timeLimit := by
        rw [pyInt_eq_floor hprod, timeBonusSpec, if_neg h1, if_neg h2]
      refine ⟨trivial, ?_, ?_⟩
      · rw [htb]
      · rw [htb, ← streak_code_eq_spec _ _
          (add_nonneg hbase (timeBonusSpec_nonneg _ _ hW0))]

/-- On an explicit-integer weight of 0 with a nonzero time limit, every
time-bonus branch and every streak branch yields 0, but the position
bonus is still folded into the returned time-bonus component. -/
lemma calc_points_v2_zero_weight (tl : ℤ) (t : ℚ) (prev : List AnswerRec)
    (pos : ℕ) (htl : tl ≠ 0) :
    calc_points_v2 ⟨.explicitInt 0, tl⟩ true t prev pos =
      some (0, posBonusSpec pos, 0) := by
  have hq : ((0 : ℤ) : ℚ) = 0 := Int.cast_zero
  simp only [calc_points_v2, maxBaseOf, pyFloorDiv, Int.zero_fdiv, posBonusSpec]
  rw [if_neg (by simp : ¬ (true = false)),
    if_neg (by simp : ¬ (PointsCfg.explicitInt 0 = PointsCfg.noPoints)), if_neg htl]
  by_cases h1 : t < 3/10
  · rw [if_pos h1]
    simp [pyInt, ite_self]
  · by_cases h2 : (tl : ℚ) ≤ t
    · rw [if_neg h1, if_pos h2]
      simp [pyInt, ite_self]
    · rw [if_neg h1, if_neg h2]
      simp [pyDiv, Int.cast_ne_zero.mpr htl, pyInt, ite_self]

/-! ## Claim theorems -/

/-- **C1** (amended): for a correct answer on a question with resolved
weight `W > 0` and `timeLimit > 0`, the engine returns base `⌊W/2⌋`, a
time-bonus component equal to the spec's time bonus plus the position
bonus `max(0, 6 − min(p+1, 6))`, and the spec's streak bonus on
`subtotal = base + timeBonus`; for an incorrect answer or a `noPoints`
config it returns `(0, 0, 0)`; for an explicit integer weight `W = 0`
the position bonus is still folded into the time-bonus component, so it
returns `(0, positionBonus, 0)` rather than `(0, 0, 0)`. -/
theorem c1_scoring_engine (q : Question) (t : ℚ) (prev : List AnswerRec)
    (pos : ℕ) (htl : 0 < q.timeLimit) :
    (0 < maxBaseOf q.points →
      calc_points_v2 q true t prev pos =
        some (Int.fdiv (maxBaseOf q.points) 2,
              timeBonusSpec (maxBaseOf q.points) t q.timeLimit + posBonusSpec pos,
              streakBonusSpec (consecutiveCorrect prev + 1)
                (Int.fdiv (maxBaseOf q.points) 2 +
                  timeBonusSpec (maxBaseOf q.points) t q.timeLimit))) ∧
    calc_points_v2 q false t prev pos = some (0, 0, 0) ∧
    (q.points = .noPoints → calc_points_v2 q true t prev pos = some (0, 0, 0)) ∧
    (q.points = .explicitInt 0 →
      calc_points_v2 q true t prev pos = some (0, posBonusSpec pos, 0)) := by
  obtain ⟨pts, tl⟩ := q
  refine ⟨fun hW => calc_points_v2_correct_eq _ t prev pos hW htl, ?_, ?_, ?_⟩
  · simp [calc_points_v2]
  · intro h; simp only at h; rw [h]; simp [calc_points_v2]
  · intro h; simp only at h; rw [h]
    exact calc_points_v2_zero_weight tl t prev pos htl.ne'

theorem c1_scoring_engine_witness :
    (0 : ℤ) < (Question.mk PointsCfg.standard 30).timeLimit ∧
    calc_points_v2 (Question.mk PointsCfg.standard 30) false (1/5) [] 0 =
      some (0, 0, 0) :=
  ⟨by decide,
   (c1_scoring_engine (Question.mk PointsCfg.standard 30) (1/5) [] 0 (by decide)).2.1⟩

/-- **C1** counterexample: for explicit weight `W = 0` (points config
`0`), a correct answer at position 0 is scored `(0, 5, 0)`, not
`(0, 0, 0)` as the claim states — the position bonus survives a zero
weight. -/
theorem c1_counterexample :
    calc_points_v2 ⟨.explicitInt 0, 30⟩ true 1 [] 0 = some (0, 5, 0) ∧
    (some ((0 : ℤ), (5 : ℤ), (0 : ℤ)) : Option (ℤ × ℤ × ℤ)) ≠ some (0, 0, 0) := by
  constructor
  · norm_num [calc_points_v2, pyInt, pyFloorDiv, pyDiv, consecutiveCorrect, maxBaseOf]
    decide
  · decide

/-- **C6** (amended): when `t ≥ timeLimit` (with `W > 0`,
`timeLimit > 0`), the time bonus proper is zero and the base `⌊W/2⌋` is
still awarded, but the *returned* time-bonus component equals the
position bonus `max(0, 6 − min(p+1, 6))` folded into it, which is
nonzero for arrival positions `p < 5`. -/
theorem c6_expired_time_bonus (q : Question) (t : ℚ) (prev : List AnswerRec)
    (pos : ℕ) (hW : 0 < maxBaseOf q.points) (htl : 0 < q.timeLimit)
    (ht : (q.timeLimit : ℚ) ≤ t) :
    calc_points_v2 q true t prev pos =
      some (Int.fdiv (maxBaseOf q.points) 2, posBonusSpec pos,
            streakBonusSpec (consecutiveCorrect prev + 1)
              (Int.fdiv (maxBaseOf q.points) 2)) := by
  have hone : (1 : ℚ) ≤ (q.timeLimit : ℚ) := by exact_mod_cast htl
  have h1 : ¬ t < 3/10 := by intro hlt; linarith
  have hspec : timeBonusSpec (maxBaseOf q.points) t q.timeLimit = 0 := by
    rw [timeBonusSpec, if_neg h1, if_pos ht]
  have h := calc_points_v2_correct_eq q t prev pos hW htl
  rw [hspec, zero_add, add_zero] at h
  exact h

theorem c6_expired_time_bonus_witness :
    0 < maxBaseOf (Question.mk PointsCfg.standard 30).points ∧
    (0 : ℤ) < (Question.mk PointsCfg.standard 30).timeLimit ∧
    (((Question.mk PointsCfg.standard 30).timeLimit : ℚ) ≤ 30) ∧
    calc_points_v2 (Question.mk PointsCfg.standard 30) true 30 [] 6 =
      some (Int.fdiv (maxBaseOf (Question.mk PointsCfg.standard 30).points) 2,
            posBonusSpec 6,
            streakBonusSpec (consecutiveCorrect [] + 1)
              (Int.fdiv (maxBaseOf (Question.mk PointsCfg.standard 30).points) 2)) :=
  ⟨by decide, by decide, by simp,
   c6_expired_time_bonus (Question.mk PointsCfg.standard 30) 30 [] 6
     (by decide) (by decide) (by simp)⟩

/-- **C6** counterexample: at `t = timeLimit` with arrival position 0
the returned time-bonus component is 5 (the folded position bonus), not
zero as the claim states. -/
theorem c6_counterexample :
    calc_points_v2 ⟨.standard, 30⟩ true 30 [] 0 = some (500, 5, 0) ∧
    (5 : ℤ) ≠ 0 := by
  constructor
  · norm_num [calc_points_v2, pyInt, pyFloorDiv, pyDiv, consecutiveCorrect, maxBaseOf]
    decide
  · decide

/-- **C7**: for a correct answer (`W > 0`, `timeLimit > 0`), with `k`
the count of consecutive correct answers at the tail of the history
plus one, the streak-bonus component equals exactly
`streakBonusSpec k (base + timeBonus)`: 0 at `k = 1`,
`⌊0.05·subtotal⌋` at `k = 2`, `⌊0.10·subtotal⌋` at `k = 3`,
`⌊0.20·subtotal⌋` at `k = 4`, `⌊0.30·subtotal⌋` at `k ≥ 5`, where
`subtotal = ⌊W/2⌋ + timeBonus` before the position bonus is folded in. -/
theorem c7_streak_bonus (q : Question) (t : ℚ) (prev : List AnswerRec)
    (pos : ℕ) (hW : 0 < maxBaseOf q.points) (htl : 0 < q.timeLimit) :
    (calc_points_v2 q true t prev pos).map (fun r => r.2.2) =
      some (streakBonusSpec (consecutiveCorrect prev + 1)
        (Int.fdiv (maxBaseOf q.points) 2 +
          timeBonusSpec (maxBaseOf q.points) t q.timeLimit)) := by
  rw [calc_points_v2_correct_eq q t prev pos hW htl]
  rfl

theorem c7_streak_bonus_witness :
    0 < maxBaseOf (Question.mk PointsCfg.standard 30).points ∧
    (0 : ℤ) < (Question.mk PointsCfg.standard 30).timeLimit ∧
    (calc_points_v2 (Question.mk PointsCfg.standard 30) true (1/5)
        [⟨0, true⟩] 0).map (fun r => r.2.2) =
      some (streakBonusSpec (consecutiveCorrect [⟨0, true⟩] + 1)
        (Int.fdiv (maxBaseOf (Question.mk PointsCfg.standard 30).points) 2 +
          timeBonusSpec (maxBaseOf (Question.mk PointsCfg.standard 30).points)
            (1/5) (Question.mk PointsCfg.standard 30).timeLimit)) :=
  ⟨by decide, by decide,
   c7_streak_bonus (Question.mk PointsCfg.standard 30) (1/5) [⟨0, true⟩] 0
     (by decide) (by decide)⟩

/-- **C10**: on a question with `timeLimit = 0` the engine is total
(the guarded early return fires before the division, so the
`ZeroDivisionError` branch — `none` in this embedding — is never
reached), and a correct answer with resolved weight `W > 0` scores the
full weight as base with no time, streak or position bonus:
`(W, 0, 0)`. -/
theorem c10_zero_timelimit_total (q : Question) (c : Bool) (t : ℚ)
    (prev : List AnswerRec) (pos : ℕ) (htl : q.timeLimit = 0) :
    (calc_points_v2 q c t prev pos).isSome = true ∧
    (0 < maxBaseOf q.points →
      calc_points_v2 q true t prev pos = some (maxBaseOf q.points, 0, 0)) := by
  constructor
  · cases c
    · simp [calc_points_v2]
    · by_cases hnp : q.points = .noPoints
      · simp [calc_points_v2, hnp]
      · simp [calc_points_v2, hnp, htl]
  · intro hW
    have hnp := maxBaseOf_pos_ne_noPoints hW
    simp [calc_points_v2, hnp, htl]

theorem c10_zero_timelimit_total_witness :
    (Question.mk PointsCfg.double 0).timeLimit = 0 ∧
    ((calc_points_v2 (Question.mk PointsCfg.double 0) true 7 [] 3).isSome = true ∧
     (0 < maxBaseOf (Question.mk PointsCfg.double 0).points →
       calc_points_v2 (Question.mk PointsCfg.double 0) true 7 [] 3 =
         some (maxBaseOf (Question.mk PointsCfg.double 0).points, 0, 0))) :=
  ⟨rfl, c10_zero_timelimit_total (Question.mk PointsCfg.double 0) true 7 [] 3 rfl⟩

lemma rankOf_le (p : LBEntry) (idx : ℕ) (prev : Option (ℤ × ℚ)) (pr : ℕ)
    (hpr : pr ≤ idx) : rankOf p idx prev pr ≤ idx + 1 := by
  cases prev with
  | none => simp [rankOf]
  | some pair =>
    obtain ⟨ps, pt⟩ := pair
    simp only [rankOf]
    split_ifs <;> omega

lemma rankLoop_length (l : List LBEntry) (idx : ℕ) (prev : Option (ℤ × ℚ))
    (pr : ℕ) : (rankLoop l idx prev pr).length = l.length := by
  induction l generalizing idx prev pr with
  | nil => rfl
  | cons p rest ih => simp only [rankLoop, List.length_cons, ih]

lemma rankLoop_rank_le (l : List LBEntry) (idx : ℕ) (prev : Option (ℤ × ℚ))
    (pr : ℕ) (hpr : pr ≤ idx) (i : ℕ)
    (h : i < (rankLoop l idx prev pr).length) :
    ((rankLoop l idx prev pr)[i]).rank ≤ idx + i + 1 := by
  induction l generalizing idx prev pr i with
  | nil => simp [rankLoop] at h
  | cons p rest ih =>
    match i with
    | 0 =>
      simp only [rankLoop, List.getElem_cons_zero]
      have := rankOf_le p idx prev pr hpr
      omega
    | Nat.succ j =>
      have h' : j < (rankLoop rest (idx + 1)
          (some (p.score, round2 p.totalTime)) (rankOf p idx prev pr)).length := by
        simp only [rankLoop, List.length_cons] at h
        omega
      have hr := rankOf_le p idx prev pr hpr
      have := ih (idx + 1) (some (p.score, round2 p.totalTime))
        (rankOf p idx prev pr) (by omega) j h'
      simp only [rankLoop, List.getElem_cons_succ]
      omega

lemma rankLoop_adj (l : List LBEntry) (idx : ℕ) (prev : Option (ℤ × ℚ))
    (pr : ℕ) (i : ℕ) (h : i + 1 < (rankLoop l idx prev pr).length) :
    ((rankLoop l idx prev pr)[i+1]).rank =
      if ((rankLoop l idx prev pr)[i+1]).score = ((rankLoop l idx prev pr)[i]).score ∧
         ((rankLoop l idx prev pr)[i+1]).rtime = ((rankLoop l idx prev pr)[i]).rtime
      then ((rankLoop l idx prev pr)[i]).rank
      else idx + i + 2 := by
  induction l generalizing idx prev pr i with
  | nil => simp [rankLoop] at h
  | cons p rest ih =>
    match i with
    | 0 =>
      match rest with
      | [] => simp [rankLoop] at h
      | p' :: rest' =>
        simp only [rankLoop, List.getElem_cons_zero, List.getElem_cons_succ, rankOf]
    | Nat.succ j =>
      have h' : j + 1 < (rankLoop rest (idx + 1)
          (some (p.score, round2 p.totalTime)) (rankOf p idx prev pr)).length := by
        simp only [rankLoop, List.length_cons] at h
        omega
      have := ih (idx + 1) (some (p.score, round2 p.totalTime))
        (rankOf p idx prev pr) j h'
      simp only [rankLoop, List.getElem_cons_succ]
      rw [this]
      split_ifs <;> omega

/-- **C8**: over a store-sorted participant list (score descending, then
totalTime ascending), `calc_leaderboard` assigns competition ranks:
two adjacent rows receive the same rank exactly when their
`(score, totalTime rounded to 2 decimals)` pairs are equal, a row that
differs from its predecessor receives its 1-based position `i + 2` (for
0-based predecessor index `i`), and the first row receives rank 1 — so
a two-way tie at the top yields ranks 1, 1, 3. -/
theorem c8_competition_ranks (parts : List LBEntry)
    (hs : List.Sorted lbLE parts) (i : ℕ)
    (h : i + 1 < (calc_leaderboard parts).length) :
    ((((calc_leaderboard parts)[i]).score = ((calc_leaderboard parts)[i+1]).score ∧
      ((calc_leaderboard parts)[i]).rtime = ((calc_leaderboard parts)[i+1]).rtime) ↔
      ((calc_leaderboard parts)[i+1]).rank = ((calc_leaderboard parts)[i]).rank) ∧
    (¬ (((calc_leaderboard parts)[i]).score = ((calc_leaderboard parts)[i+1]).score ∧
        ((calc_leaderboard parts)[i]).rtime = ((calc_leaderboard parts)[i+1]).rtime) →
      ((calc_leaderboard parts)[i+1]).rank = i + 2) ∧
    ((calc_leaderboard parts)[0]).rank = 1 := by
  simp only [calc_leaderboard] at h ⊢
  have hadj := rankLoop_adj parts 0 none 0 i h
  have hle := rankLoop_rank_le parts 0 none 0 (le_refl 0) i (by omega)
  refine ⟨⟨?_, ?_⟩, ?_, ?_⟩
  · intro hpair
    rw [hadj, if_pos ⟨hpair.1.symm, hpair.2.symm⟩]
  · intro hrank
    by_contra hpair
    rw [hadj, if_neg (fun hc => hpair ⟨hc.1.symm, hc.2.symm⟩)] at hrank
    omega
  · intro hpair
    rw [hadj, if_neg (fun hc => hpair ⟨hc.1.symm, hc.2.symm⟩)]
    omega
  · match parts with
    | [] => simp [rankLoop] at h
    | p :: rest => simp [rankLoop, rankOf]

theorem c8_competition_ranks_witness :
    List.Sorted lbLE lbExample ∧ 0 + 1 < (calc_leaderboard lbExample).length ∧
    ((((calc_leaderboard lbExample).get ⟨0, (by decide)⟩).score =
        ((calc_leaderboard lbExample).get ⟨1, (by decide)⟩).score ∧
      ((calc_leaderboard lbExample).get ⟨0, (by decide)⟩).rtime =
        ((calc_leaderboard lbExample).get ⟨1, (by decide)⟩).rtime) ↔
      ((calc_leaderboard lbExample).get ⟨1, (by decide)⟩).rank =
        ((calc_leaderboard lbExample).get ⟨0, (by decide)⟩).rank) := by
  refine ⟨by decide, by decide, ?_⟩
  exact (c8_competition_ranks lbExample (by decide) 0 (by decide)).1

/-- **C2**: when the submitting participant is already in the room's
answered set for the current question, `submit-answer` fast-fails with
HTTP 400 and returns the server state *unchanged* — in particular the
participant's stored score and answers sequence are untouched, and the
rejection happens before any document-store write. -/
theorem c2_duplicate_submission_rejected (s : ServerState) (ans : AnswerSubmit)
    (room : RoomState) (hr : lookupRoom s ans.quizCode = some room)
    (hmem : ans.participantId ∈ room.answered) :
    submit_answer s ans = (.error 400, s) := by
  have hha : has_answered s ans.quizCode ans.participantId = true := by
    simp [has_answered, hr, hmem]
  simp [submit_answer, hha]

theorem c2_duplicate_submission_rejected_witness :
    lookupRoom c2State c2Ans.quizCode = some ⟨.question, 0, ["p1"]⟩ ∧
    c2Ans.participantId ∈ (RoomState.mk .question 0 ["p1"]).answered ∧
    submit_answer c2State c2Ans = (.error 400, c2State) :=
  ⟨by decide, by decide,
   c2_duplicate_submission_rejected c2State c2Ans ⟨.question, 0, ["p1"]⟩
     (by decide) (by decide)⟩

/-- **C3** (code bug): the replay trace `submit(p1, Q0)`,
`set_question(Q1)`, `submit(p1, Q0)` is accepted twice — the answered
set that backs the duplicate fast-fail is cleared by `set_question`, and
the handler never compares the client-supplied `questionIndex` against
the participant's existing records — leaving `p1` with two answer
records that share questionIndex 0, violating invariant I5. -/
theorem c3_duplicate_question_index :
    c3State3.participants.map (fun p => p.answers) = [[⟨0, true⟩, ⟨0, true⟩]] ∧
    ¬ noDupQuestionIndex [⟨0, true⟩, ⟨0, true⟩] := by
  have h1 : c3State1 =
      { rooms := [("R1", ⟨.question, 0, ["p1"]⟩)]
        quizzes := [⟨"R1", "active"⟩]
        questions := [⟨"R1", 0, .standard, 30, .single 1⟩, ⟨"R1", 1, .standard, 30, .single 2⟩]
        participants := [⟨"p1", "R1", 1005, 0, [⟨0, true⟩]⟩] } := by
    norm_num [c3State1, c3State0, c3Ans, submit_answer, has_answered, get_state,
      lookupRoom, mark_answered, updateRoom, updateFirst, calc_points_v2,
      maxBaseOf, pyFloorDiv, pyInt, pyDiv, consecutiveCorrect,
      (by decide : Int.fdiv 1000 2 = 500),
      (by decide : ¬ (QuizStateV.question = QuizStateV.ended)),
      (by decide : ¬ (QuizStateV.question = QuizStateV.podium)),
      (by decide : ¬ (("active" : String) = "ended")),
      (by decide : ¬ (PointsCfg.standard = PointsCfg.noPoints))]
  have h2 : c3State2 =
      { rooms := [("R1", ⟨.question, 1, []⟩)]
        quizzes := [⟨"R1", "active"⟩]
        questions := [⟨"R1", 0, .standard, 30, .single 1⟩, ⟨"R1", 1, .standard, 30, .single 2⟩]
        participants := [⟨"p1", "R1", 1005, 0, [⟨0, true⟩]⟩] } := by
    rw [c3State2, h1]
    norm_num [set_question, updateRoom]
  have h3 : c3State3.participants.map (fun p => p.answers) = [[⟨0, true⟩, ⟨0, true⟩]] := by
    rw [c3State3, h2]
    norm_num [c3Ans, submit_answer, has_answered, get_state, lookupRoom,
      mark_answered, updateRoom, updateFirst, calc_points_v2, maxBaseOf,
      pyFloorDiv, pyInt, pyDiv, consecutiveCorrect,
      (by decide : Int.fdiv 1000 2 = 500),
      (by decide : ¬ (QuizStateV.question = QuizStateV.ended)),
      (by decide : ¬ (QuizStateV.question = QuizStateV.podium)),
      (by decide : ¬ (("active" : String) = "ended")),
      (by decide : ¬ (PointsCfg.standard = PointsCfg.noPoints))]
  exact ⟨h3, by simp [noDupQuestionIndex]⟩

/-- **C4** (code bug): `update_quiz_status` succeeds but leaves every
cache entry in place in both tiers — the handler calls
`quiz_cache.invalidate(code)` without `await` (server.py:1311), so the
coroutine never runs; an actually-executed `invalidate` would have
emptied all three keys. -/
theorem c4_cache_never_invalidated :
    (update_quiz_status c4State "AB12" "inactive").1 = .ok "inactive" ∧
    (update_quiz_status c4State "AB12" "inactive").2.cache = c4State.cache ∧
    "AB12" ∈ (update_quiz_status c4State "AB12" "inactive").2.cache.memQuizKeys ∧
    "quiz:AB12" ∈ (update_quiz_status c4State "AB12" "inactive").2.cache.redisKeys ∧
    QuizCache.invalidate c4State.cache "AB12" = ⟨[], [], []⟩ := by
  refine ⟨rfl, by decide, by decide, by decide, by decide⟩

/-- **C5** (amended): the broadcast worker flushes the pending batch
immediately when the dequeued event's type is one of the seven critical
types `quiz_starting`, `next_question`, `show_answer`,
`show_leaderboard`, `show_podium`, `sync_state`, `question_time_sync` —
regardless of the 10 ms batching window.  (`participant_kicked` and
`quiz_ended` are *not* in the code's critical set.) -/
theorem c5_critical_flush (ws : WorkerState) (msgType : String) (now : ℚ)
    (h : msgType ∈ criticalTypes) : (workerStep ws msgType now).1 = true := by
  simp [workerStep, h]

theorem c5_critical_flush_witness :
    ("show_answer" : String) ∈ criticalTypes ∧
    (workerStep ⟨["chat"], 0⟩ "show_answer" 0).1 = true :=
  ⟨by decide, c5_critical_flush ⟨["chat"], 0⟩ "show_answer" 0 (by decide)⟩

/-- **C5** counterexample: an event of type `participant_kicked` (or
`quiz_ended`) arriving while the 10 ms window is still open is *not*
flushed — it is held in the batch — contradicting the claim that those
two types flush immediately. -/
theorem c5_counterexample :
    (workerStep ⟨[], 0⟩ "participant_kicked" 0).1 = false ∧
    (workerStep ⟨[], 0⟩ "quiz_ended" 0).1 = false := by
  constructor <;> (norm_num [workerStep, criticalTypes]; decide)

/-- **C9**: `get_quiz_questions` strips `correctAnswer` exactly when
`participantId ≠ "admin"`: a non-admin request with a resolvable
participant receives every question with the `correctAnswer` key
filtered out (no returned question contains it), while
`participantId = "admin"` receives the questions unmodified — including
`correctAnswer` — and the result does not depend on participant
verification at all (no bearer token is consulted anywhere in the
handler). -/
theorem c9_admin_literal_strips_answers (qz : QuizDoc)
    (qs : List (List (String × String))) (pid : String) (r : Bool) :
    (pid ≠ "admin" → r = true → qz.status ≠ "ended" →
      get_quiz_questions (some qz) qs pid r = .ok (qs.map stripCorrectAnswer) ∧
      ∀ q ∈ qs.map stripCorrectAnswer, ∀ kv ∈ q, kv.1 ≠ "correctAnswer") ∧
    (pid = "admin" → qz.status ≠ "ended" →
      ∀ r2 : Bool, get_quiz_questions (some qz) qs pid r2 = .ok qs) := by
  constructor
  · intro hpid hr hst
    constructor
    · subst hr
      simp [get_quiz_questions, hst, hpid]
    · intro q hq kv hkv
      obtain ⟨q0, hq0, rfl⟩ := List.mem_map.mp hq
      exact of_decide_eq_true (List.mem_filter.mp hkv).2
  · intro hpid hst r2
    simp [get_quiz_questions, hst, hpid]

theorem c9_admin_literal_strips_answers_witness :
    ("p7" : String) ≠ "admin" ∧ (("active" : String) ≠ "ended") ∧
    get_quiz_questions (some ⟨"Q1", "active"⟩)
        [[("question", "2+2"), ("correctAnswer", "4")]] "p7" true =
      .ok [[("question", "2+2")]] ∧
    get_quiz_questions (some ⟨"Q1", "active"⟩)
        [[("question", "2+2"), ("correctAnswer", "4")]] "admin" false =
      .ok [[("question", "2+2"), ("correctAnswer", "4")]] := by
  refine ⟨by decide, by decide, ?_, ?_⟩
  · have h := (c9_admin_literal_strips_answers ⟨"Q1", "active"⟩
      [[("question", "2+2"), ("correctAnswer", "4")]] "p7" true).1
      (by decide) rfl (by decide)
    rw [h.1]
    rfl
  · exact (c9_admin_literal_strips_answers ⟨"Q1", "active"⟩
      [[("question", "2+2"), ("correctAnswer", "4")]] "admin" false).2
      rfl (by decide) false
